import Mathlib

/-!
Shallow embedding of the scene-tree core of `src/sketch.rs`
(egui scene-graph visualizer): data model, animation, recursive layout,
hit-testing, deletion, and the edit-request queue.

`f32` values are modelled as exact rationals (ℚ); `u32` arithmetic is
modelled on `Nat` with an explicit `% 2^32` where the source increments.
-/

/-- Rust enum `ShapeKind` from sketch.rs: Square | Circle | Triangle. -/
inductive ShapeKind where
  | Square
  | Circle
  | Triangle
deriving DecidableEq

/-- Type `egui::Color32`, an sRGBA quadruple of bytes. -/
structure Color32 where
  r : Nat
  g : Nat
  b : Nat
  a : Nat
deriving DecidableEq

/-- Constant `Color32::WHITE`. -/
def Color32.WHITE : Color32 := ⟨255, 255, 255, 255⟩

/-- 2-d vector (`egui::Vec2`) with exact-rational coordinates. -/
structure Vec2 where
  x : ℚ
  y : ℚ
deriving DecidableEq

/-- Struct `SceneObject` from sketch.rs: id, committed name `text`, editable
draft `textBuffer`, shape, color, rotation speed, accumulated rotation,
and the owned list of children. -/
inductive SceneObject where
  | mk (id : Nat) (text : String) (textBuffer : String) (shape : ShapeKind)
       (color : Color32) (rotationSpeed : ℚ) (currentRotation : ℚ)
       (children : List SceneObject)

def SceneObject.id : SceneObject → Nat
  | .mk i _ _ _ _ _ _ _ => i

def SceneObject.text : SceneObject → String
  | .mk _ t _ _ _ _ _ _ => t

def SceneObject.textBuffer : SceneObject → String
  | .mk _ _ tb _ _ _ _ _ => tb

def SceneObject.shape : SceneObject → ShapeKind
  | .mk _ _ _ sh _ _ _ _ => sh

def SceneObject.color : SceneObject → Color32
  | .mk _ _ _ _ c _ _ _ => c

def SceneObject.rotationSpeed : SceneObject → ℚ
  | .mk _ _ _ _ _ rs _ _ => rs

def SceneObject.currentRotation : SceneObject → ℚ
  | .mk _ _ _ _ _ _ cr _ => cr

def SceneObject.children : SceneObject → List SceneObject
  | .mk _ _ _ _ _ _ _ ch => ch

/-- Replace the children list of a node, keeping every other field. -/
def SceneObject.setChildren : SceneObject → List SceneObject → SceneObject
  | .mk i t tb sh c rs cr _, ch => .mk i t tb sh c rs cr ch

/-- Constructor `SceneObject::new`: fresh node with the given id, name, shape and
color; the draft buffer starts equal to the name, rotation speed 20,
current rotation 0, no children. -/
def SceneObject.new (id : Nat) (name : String) (shape : ShapeKind)
    (color : Color32) : SceneObject :=
  .mk id name name shape color 20 0 []

/-- All ids of a forest, in depth-first pre-order. -/
def allIds : List SceneObject → List Nat
  | [] => []
  | .mk i _ _ _ _ _ _ ch :: rest => i :: (allIds ch ++ allIds rest)

/-- All nodes of a forest, in depth-first pre-order (a node before its
children, siblings left to right). -/
def allNodes : List SceneObject → List SceneObject
  | [] => []
  | o@(.mk _ _ _ _ _ _ _ ch) :: rest => o :: (allNodes ch ++ allNodes rest)

/- ---------------- animation ---------------- -/

/-- The loop `for o in &mut self.scene_objects { animate(o, dt) }`
together with `animate`'s body: each node gets
`current_rotation += rotation_speed * dt` and the same applied to its
children, recursively (sketch.rs `animate`, lines 255-260). -/
def animateF : List SceneObject → ℚ → List SceneObject
  | [], _ => []
  | .mk i t tb sh c rs cr ch :: rest, dt =>
      .mk i t tb sh c rs (cr + rs * dt) (animateF ch dt) :: animateF rest dt

/-- sketch.rs `animate`: bump the node's own rotation, then recurse into
its children (the recursion is `animateF` on the children list). -/
def animate (o : SceneObject) (dt : ℚ) : SceneObject :=
  match o with
  | .mk i t tb sh c rs cr ch => .mk i t tb sh c rs (cr + rs * dt) (animateF ch dt)

/- ---------------- layout ---------------- -/

/-- Horizontal spacing constant `XS` of `layout_recursive`. -/
def XS : ℚ := 250

/-- Minimum row height constant `YS` of `layout_recursive`. -/
def YS : ℚ := 120

/-- The layout map `HashMap<u32, egui::Vec2>`, modelled as an
association list whose key list is kept duplicate-free by `insertL`. -/
def LayoutMap : Type := List (Nat × Vec2)

/-- Insertion as `HashMap::insert`: the new binding replaces any old
binding of the same key. -/
def insertL (m : LayoutMap) (k : Nat) (p : Vec2) : LayoutMap :=
  (k, p) :: m.filter (fun e => e.1 != k)

/-- Lookup as `HashMap::get`. -/
def lookupL (m : LayoutMap) (k : Nat) : Option Vec2 :=
  (m.find? (fun e => e.1 == k)).map (fun e => e.2)

/-- Keys of a layout map. -/
def keysL (m : LayoutMap) : List Nat := m.map (fun e => e.1)

/-- The children loop of `layout_recursive` (sketch.rs lines 271-274)
with the node body inlined, which is also the root loop of
`AppState::update` (lines 147-150): both call
`layout_recursive(o, x, cy, &mut cy, m)`, i.e. with `y` and `*cur` equal
on entry.  For each node: lay out its children first at `x + XS`
starting at the running cursor `cy` (accumulating their total extent
`th`), place the node at `(x, cy + th/2 - YS/2)` when it has children
and at `(x, *cur) = (x, cy)` when it is a leaf, insert that position
into the map, and advance the cursor by `h = max th YS`.  Returns
`(total extent, final cursor, final map)`. -/
def layoutList : List SceneObject → ℚ → ℚ → LayoutMap → ℚ × ℚ × LayoutMap
  | [], _, cy, m => (0, cy, m)
  | .mk oid _ _ _ _ _ _ ch :: rest, x, cy, m =>
      let r := layoutList ch (x + XS) cy m
      let p : Vec2 := if ch.isEmpty then ⟨x, cy⟩ else ⟨x, cy + r.1 / 2 - YS / 2⟩
      let m2 := insertL r.2.2 oid p
      let h := max r.1 YS
      let r2 := layoutList rest x (cy + h) m2
      (h + r2.1, r2.2.1, r2.2.2)

/-- sketch.rs `layout_recursive` (lines 262-285) for a single node,
with its distinct `y` (entry row) and `cur` (caller's running cursor)
parameters: children are laid out first at `x + XS` starting from `y`;
a node with children is placed at `(x, y + th/2 - YS/2)`, a leaf at
`(x, *cur)`; the map gains the node's position, and the function
returns `h = max th YS`, writing `y + h` back through `cur`. -/
def layout_recursive (o : SceneObject) (x y cur : ℚ) (m : LayoutMap) :
    ℚ × ℚ × LayoutMap :=
  match o with
  | .mk oid _ _ _ _ _ _ ch =>
      let r := layoutList ch (x + XS) y m
      let p : Vec2 := if ch.isEmpty then ⟨x, cur⟩ else ⟨x, y + r.1 / 2 - YS / 2⟩
      let m2 := insertL r.2.2 oid p
      let h := max r.1 YS
      (h, y + h, m2)

/-- The per-frame layout pass of `AppState::update` (lines 146-150):
`cy` starts at 100, each root is laid out at `x = 200` with `y` and
`cur` both equal to the running `cy`. -/
def layoutForest (v : List SceneObject) : LayoutMap :=
  (layoutList v 200 100 []).2.2

/- ---------------- hit-testing ---------------- -/

/-- Squared distance between two points: the source tests
`(w - p).length() < 20.0`, rendered exactly as `dist2 w p < 400`. -/
def dist2 (a b : Vec2) : ℚ :=
  (a.x - b.x) ^ 2 + (a.y - b.y) ^ 2

/-- The hit test of `find_clicked_object` on one node: the node's
anchor is looked up in the map and, when present, compared against the
fixed radius 20 (squared: 400); a node whose id is absent from the map
is not a hit. -/
def hitB (w : Vec2) (m : LayoutMap) (o : SceneObject) : Bool :=
  match lookupL m o.id with
  | some p => decide (dist2 w p < 400)
  | none => false

/-- sketch.rs `find_clicked_object` (lines 398-409) generalized to a
list, as used by its own recursion `o.children.iter().find_map(...)`:
test the node itself first, then its children depth-first, then the
next sibling. -/
def findClickedList : List SceneObject → Vec2 → LayoutMap → Option Nat
  | [], _, _ => none
  | o@(.mk oid _ _ _ _ _ _ ch) :: rest, w, m =>
      if hitB w m o then some oid
      else
        match findClickedList ch w m with
        | some r => some r
        | none => findClickedList rest w m

/-- sketch.rs `find_clicked_object` for a single node. -/
def find_clicked_object (o : SceneObject) (w : Vec2) (m : LayoutMap) :
    Option Nat :=
  match o with
  | .mk oid _ _ _ _ _ _ ch =>
      if hitB w m o then some oid
      else findClickedList ch w m

/-- The click resolution of `AppState::update` (lines 169-173):
`self.scene_objects.iter().filter_map(|o| find_clicked_object(o, world,
&layout)).next()` — the first root whose subtree yields a hit wins. -/
def findClickedForest (v : List SceneObject) (w : Vec2) (m : LayoutMap) :
    Option Nat :=
  v.findSome? (fun o => find_clicked_object o w m)

/- ---------------- lookup / mutation ---------------- -/

/-- sketch.rs `find_object_by_id` (lines 379-387): first node with the
given id in depth-first pre-order (self before children, then the next
sibling). -/
def find_object_by_id : List SceneObject → Nat → Option SceneObject
  | [], _ => none
  | o@(.mk oid _ _ _ _ _ _ ch) :: rest, id =>
      if oid == id then some o
      else
        match find_object_by_id ch id with
        | some r => some r
        | none => find_object_by_id rest id

/-- Pure rendering of `find_object_by_id_mut` (lines 388-396) together
with its use site: apply `f` to the first node with the given id, found
in the same order as `find_object_by_id`, rebuilding the forest around
it; `none` when no node has the id. -/
def updateFirstById :
    List SceneObject → Nat → (SceneObject → SceneObject) →
    Option (List SceneObject)
  | [], _, _ => none
  | o@(.mk oid _ _ _ _ _ _ ch) :: rest, id, f =>
      if oid == id then some (f o :: rest)
      else
        match updateFirstById ch id f with
        | some ch2 => some (o.setChildren ch2 :: rest)
        | none =>
          match updateFirstById rest id f with
          | some rest2 => some (o :: rest2)
          | none => none

/- ---------------- deletion ---------------- -/

/-- The second phase of `find_and_delete_node` (lines 375-376):
`v.iter_mut().any(|o| find_and_delete_node(&mut o.children, id))` with
the recursive call's body inlined — for each node in order, first look
for a direct match among its children (`position` + `remove`), else
recurse deeper; stop at the first success, leaving later siblings
untouched. -/
def delChildren : List SceneObject → Nat → List SceneObject × Bool
  | [], _ => ([], false)
  | o@(.mk _ _ _ _ _ _ _ ch) :: rest, id =>
      let inner : List SceneObject × Bool :=
        match ch.findIdx? (fun c => c.id == id) with
        | some i => (ch.eraseIdx i, true)
        | none => delChildren ch id
      if inner.2 then (o.setChildren inner.1 :: rest, true)
      else
        let r := delChildren rest id
        (o :: r.1, r.2)

/-- sketch.rs `find_and_delete_node` (lines 370-377): remove the first
direct element of `v` with the given id (`position` + `remove`); when
none matches, fall through to the children of each element in order. -/
def find_and_delete_node (v : List SceneObject) (id : Nat) :
    List SceneObject × Bool :=
  match v.findIdx? (fun o => o.id == id) with
  | some i => (v.eraseIdx i, true)
  | none => delChildren v id

/-- The order in which `find_and_delete_node` encounters nodes: all
direct elements of the current list first, then, for each element in
order, its children searched the same way (depth-first by subtree,
each sibling list checked in full before descending into it). -/
def searchTail : List SceneObject → List SceneObject
  | [] => []
  | .mk _ _ _ _ _ _ _ ch :: rest => (ch ++ searchTail ch) ++ searchTail rest

/-- Full search order of `find_and_delete_node` over a forest. -/
def searchOrder (v : List SceneObject) : List SceneObject :=
  v ++ searchTail v

/- ---------------- edit-request queue ---------------- -/

/-- Enum `EditorRequest` from sketch.rs. -/
inductive EditorRequest where
  | AddChild (parent_id : Nat)
  | DeleteNode (node_id : Nat)
deriving DecidableEq

/-- Modulus of the `u32` id counter. -/
def u32size : Nat := 4294967296

/-- The mutation performed on the found parent by the `AddChild` branch
of `process_requests`: `p.children.push(new_node)`. -/
def pushChild (n : SceneObject) (p : SceneObject) : SceneObject :=
  p.setChildren (p.children ++ [n])

/-- sketch.rs `process_requests` (lines 343-365): drain the queue in
enqueue order.  `AddChild`: if the parent id is found, increment the
shared counter (`u32` wrapping) and append a default `SceneObject::new`
node ("New Node", Square, white) as the parent's last child; otherwise
do nothing.  `DeleteNode`: `find_and_delete_node`, ignoring the flag. -/
def process_requests :
    List SceneObject → List EditorRequest → Nat → List SceneObject × Nat
  | v, [], c => (v, c)
  | v, .AddChild pid :: rest, c =>
      match updateFirstById v pid
          (pushChild (SceneObject.new ((c + 1) % u32size) "New Node" .Square .WHITE)) with
      | some v2 => process_requests v2 rest ((c + 1) % u32size)
      | none => process_requests v rest c
  | v, .DeleteNode nid :: rest, c =>
      process_requests (find_and_delete_node v nid).1 rest c

/-- Ghost-instrumented `process_requests`: identical control flow, but
also returns the list of ids assigned by the applied `AddChild`
requests, in assignment order. -/
def processRequestsT :
    List SceneObject → List EditorRequest → Nat →
    List SceneObject × Nat × List Nat
  | v, [], c => (v, c, [])
  | v, .AddChild pid :: rest, c =>
      match updateFirstById v pid
          (pushChild (SceneObject.new ((c + 1) % u32size) "New Node" .Square .WHITE)) with
      | some v2 =>
          let r := processRequestsT v2 rest ((c + 1) % u32size)
          (r.1, r.2.1, (c + 1) % u32size :: r.2.2)
      | none => processRequestsT v rest c
  | v, .DeleteNode nid :: rest, c =>
      processRequestsT (find_and_delete_node v nid).1 rest c

/- ---------------- camera / input ---------------- -/

/-- Camera-relevant slice of `AppState`: zoom, the pan state
machine flag `dragging`, the pan reference `last_pointer`, and
`camera_target`. -/
structure CameraState where
  zoom : ℚ
  dragging : Bool
  lastPointer : Vec2
  cameraTarget : Vec2

/-- Per-frame input consumed by the pan/zoom block of
`AppState::update`: vertical scroll delta, device pixel ratio, state of
the secondary pointer button, and the pointer hover position. -/
structure FrameInput where
  rawScrollDeltaY : ℚ
  pixelsPerPoint : ℚ
  secondaryDown : Bool
  hoverPos : Option Vec2

/-- Rust method `f32::clamp(lo, hi)`. -/
def rustClamp (x lo hi : ℚ) : ℚ :=
  if x < lo then lo else if x > hi then hi else x

/-- The pan & zoom block of `AppState::update` (sketch.rs lines
119-136): zoom is moved by `raw_scroll_delta.y * 0.001 *
pixels_per_point` and clamped into `[0.1, 2.0]`; then the two-state
pan machine runs (Idle → Panning on secondary-down edge, translate
while panning, Panning → Idle on release). -/
def updateCamera (s : CameraState) (i : FrameInput) : CameraState :=
  let z := rustClamp (s.zoom + i.rawScrollDeltaY * (1 / 1000) * i.pixelsPerPoint)
      (1 / 10) 2
  let s1 : CameraState :=
    if i.secondaryDown && !s.dragging then
      { s with zoom := z, dragging := true,
               lastPointer := i.hoverPos.getD s.lastPointer }
    else { s with zoom := z }
  if s1.dragging then
    let s2 : CameraState :=
      match i.hoverPos with
      | some p =>
          { s1 with
            cameraTarget := ⟨s1.cameraTarget.x - (p.x - s1.lastPointer.x) / s1.zoom,
                             s1.cameraTarget.y - (p.y - s1.lastPointer.y) / s1.zoom⟩,
            lastPointer := p }
      | none => s1
    if !i.secondaryDown then { s2 with dragging := false } else s2
  else s1

/- ---------------- induction principle ---------------- -/

/-- Induction over forests of scene objects: to prove a property of
every forest, prove it for the empty forest and for a cons whose head's
children and whose tail both satisfy it. -/
def forest_ind (P : List SceneObject → Prop) (h1 : P [])
    (h2 : ∀ i t tb sh c rs cr ch rest, P ch → P rest →
      P (.mk i t tb sh c rs cr ch :: rest)) :
    ∀ v, P v
  | [] => h1
  | .mk i t tb sh c rs cr ch :: rest =>
      h2 i t tb sh c rs cr ch rest (forest_ind P h1 h2 ch) (forest_ind P h1 h2 rest)

/- ---------------- basic structure lemmas ---------------- -/

theorem allIds_append (a b : List SceneObject) :
    allIds (a ++ b) = allIds a ++ allIds b := by
  induction a using allIds.induct with
  | case1 => simp [allIds]
  | case2 i t tb sh c rs cr ch rest ih1 ih2 => simp [allIds, ih2]

theorem allNodes_append (a b : List SceneObject) :
    allNodes (a ++ b) = allNodes a ++ allNodes b := by
  induction a using allNodes.induct with
  | case1 => simp [allNodes]
  | case2 i t tb sh c rs cr ch rest ih1 ih2 => simp [allNodes, ih2]

theorem allIds_map (v : List SceneObject) :
    allIds v = (allNodes v).map SceneObject.id := by
  induction v using allIds.induct with
  | case1 => simp [allIds, allNodes]
  | case2 i t tb sh c rs cr ch rest ih1 ih2 =>
      simp [allIds, allNodes, SceneObject.id, ih1, ih2]

theorem mem_allNodes_trans (v : List SceneObject) :
    ∀ q ∈ allNodes v, ∀ x ∈ allNodes [q], x ∈ allNodes v := by
  refine forest_ind (fun v => ∀ q ∈ allNodes v, ∀ x ∈ allNodes [q], x ∈ allNodes v)
    ?_ ?_ v
  · simp [allNodes]
  · intro i t tb sh c rs cr ch rest ih1 ih2 q hq x hx
    simp only [allNodes, List.mem_cons, List.mem_append] at hq ⊢
    rcases hq with rfl | hq | hq
    · simp only [allNodes, List.mem_cons, List.mem_append] at hx
      rcases hx with rfl | hx | hx
      · exact Or.inl rfl
      · exact Or.inr (Or.inl hx)
      · simp at hx
    · exact Or.inr (Or.inl (ih1 q hq x hx))
    · exact Or.inr (Or.inr (ih2 q hq x hx))

theorem searchOrder_perm (v : List SceneObject) :
    (searchOrder v).Perm (allNodes v) := by
  induction v using searchTail.induct with
  | case1 => simp [searchOrder, searchTail, allNodes]
  | case2 i t tb sh c rs cr ch rest ih1 ih2 =>
      simp only [searchOrder, searchTail, allNodes] at *
      refine (List.Perm.cons _ ?_)
      rw [← Multiset.coe_eq_coe] at ih1 ih2 ⊢
      simp only [List.append_eq, ← Multiset.coe_add] at ih1 ih2 ⊢
      rw [← ih1, ← ih2]
      abel

theorem searchOrder_ids_perm (v : List SceneObject) :
    ((searchOrder v).map SceneObject.id).Perm (allIds v) := by
  rw [allIds_map]
  exact (searchOrder_perm v).map SceneObject.id

/- ---------------- layout-map primitive lemmas ---------------- -/

theorem keysL_insertL (m : LayoutMap) (k : Nat) (p : Vec2) :
    keysL (insertL m k p) = k :: (keysL m).filter (fun j => j != k) := by
  simp [keysL, insertL, List.filter_map, Function.comp_def]

theorem mem_keysL_insertL (m : LayoutMap) (k : Nat) (p : Vec2) (j : Nat) :
    j ∈ keysL (insertL m k p) ↔ j = k ∨ j ∈ keysL m := by
  rw [keysL_insertL]
  simp only [List.mem_cons, List.mem_filter, bne_iff_ne, ne_eq]
  by_cases h : j = k <;> simp [h]

theorem nodup_keysL_insertL (m : LayoutMap) (k : Nat) (p : Vec2)
    (h : (keysL m).Nodup) : (keysL (insertL m k p)).Nodup := by
  rw [keysL_insertL]
  refine List.Nodup.cons ?_ (h.filter _)
  intro hk
  rcases List.mem_filter.mp hk with ⟨_, hne⟩
  simp at hne

theorem lookupL_insertL_self (m : LayoutMap) (k : Nat) (p : Vec2) :
    lookupL (insertL m k p) k = some p := by
  simp [lookupL, insertL, List.find?_cons]

/- ---------------- layout lemmas ---------------- -/

theorem layoutList_keys (v : List SceneObject) :
    ∀ x cy m,
      (∀ j, j ∈ keysL (layoutList v x cy m).2.2 ↔ j ∈ allIds v ∨ j ∈ keysL m) ∧
      ((keysL m).Nodup → (keysL (layoutList v x cy m).2.2).Nodup) := by
  refine forest_ind
    (fun v => ∀ x cy m,
      (∀ j, j ∈ keysL (layoutList v x cy m).2.2 ↔ j ∈ allIds v ∨ j ∈ keysL m) ∧
      ((keysL m).Nodup → (keysL (layoutList v x cy m).2.2).Nodup)) ?_ ?_ v
  · intro x cy m
    simp [layoutList, allIds]
  · intro i t tb sh c rs cr ch rest ih1 ih2 x cy m
    simp only [layoutList, allIds]
    constructor
    · intro j
      rw [((ih2 _ _ _).1 j), mem_keysL_insertL, ((ih1 _ _ _).1 j)]
      simp only [List.mem_cons, List.mem_append]
      tauto
    · intro hm
      exact (ih2 _ _ _).2 (nodup_keysL_insertL _ _ _ ((ih1 _ _ _).2 hm))

/- ---------------- hit-test lemmas ---------------- -/

theorem findClickedList_eq_find (v : List SceneObject) :
    ∀ w m, findClickedList v w m =
      ((allNodes v).find? (hitB w m)).map SceneObject.id := by
  refine forest_ind
    (fun v => ∀ w m, findClickedList v w m =
      ((allNodes v).find? (hitB w m)).map SceneObject.id) ?_ ?_ v
  · intro w m
    simp [findClickedList, allNodes]
  · intro i t tb sh c rs cr ch rest ih1 ih2 w m
    by_cases hh : hitB w m (.mk i t tb sh c rs cr ch)
    · simp [findClickedList, allNodes, hh, List.find?_cons_of_pos, SceneObject.id]
    · rw [show findClickedList (SceneObject.mk i t tb sh c rs cr ch :: rest) w m =
          (match findClickedList ch w m with
           | some r => some r
           | none => findClickedList rest w m) by
        simp [findClickedList, hh]]
      rw [show allNodes (SceneObject.mk i t tb sh c rs cr ch :: rest) =
          SceneObject.mk i t tb sh c rs cr ch :: (allNodes ch ++ allNodes rest) by
        simp [allNodes]]
      rw [List.find?_cons_of_neg _ hh, List.find?_append, ih1, ih2]
      cases h2 : (allNodes ch).find? (hitB w m) <;> simp [h2]

theorem findClickedForest_eq (v : List SceneObject) (w : Vec2) (m : LayoutMap) :
    findClickedForest v w m = findClickedList v w m := by
  induction v with
  | nil => simp [findClickedForest, findClickedList]
  | cons o rest ih =>
      cases o with
      | mk i t tb sh c rs cr ch =>
        simp only [findClickedForest, List.findSome?_cons] at *
        by_cases hh : hitB w m (.mk i t tb sh c rs cr ch)
        · simp [find_clicked_object, findClickedList, hh]
        · rw [show find_clicked_object (SceneObject.mk i t tb sh c rs cr ch) w m =
              findClickedList ch w m by simp [find_clicked_object, hh]]
          rw [show findClickedList (SceneObject.mk i t tb sh c rs cr ch :: rest) w m =
              (match findClickedList ch w m with
               | some r => some r
               | none => findClickedList rest w m) by
            simp [findClickedList, hh]]
          cases h2 : findClickedList ch w m <;> simp [h2, ih]

/- ---------------- deletion lemmas ---------------- -/

theorem findIdx_none_find_none {v : List SceneObject} {p : SceneObject → Bool}
    (h : v.findIdx? p = none) : v.find? p = none := by
  rw [List.find?_eq_none]
  intro x hx
  simp only [List.findIdx?_eq_none_iff] at h
  simp [h x hx]

theorem topPhase (id : Nat) (w : List SceneObject) :
    ∀ (v : List SceneObject) (i : Nat),
      v.findIdx? (fun o => o.id == id) = some i →
      ∃ tnode, (v ++ w).find? (fun o => o.id == id) = some tnode ∧
        tnode.id = id ∧
        (↑(allIds (v.eraseIdx i) ++ allIds [tnode]) : Multiset Nat) =
          ↑(allIds v) := by
  intro v
  induction v with
  | nil => intro i h; simp [List.findIdx?_nil] at h
  | cons o rest ih =>
      intro i h
      cases o with
      | mk i0 t tb sh c rs cr ch =>
        rw [List.findIdx?_cons] at h
        by_cases hid : (SceneObject.mk i0 t tb sh c rs cr ch).id == id
        · rw [if_pos hid] at h
          obtain rfl : (0 : Nat) = i := by simpa using h
          refine ⟨SceneObject.mk i0 t tb sh c rs cr ch,
            List.find?_cons_of_pos _ hid, by simpa [SceneObject.id] using hid, ?_⟩
          rw [List.eraseIdx_cons_zero]
          simp only [allIds, List.append_nil, ← Multiset.coe_add,
            ← Multiset.cons_coe, ← Multiset.singleton_add]
          abel
        · rw [if_neg hid, List.findIdx?_succ] at h
          rcases Option.map_eq_some'.mp h with ⟨j, hj, rfl⟩
          obtain ⟨tnode, hfind, htid, hperm⟩ := ih j hj
          have hid2 : ((SceneObject.mk i0 t tb sh c rs cr ch).id == id) = false := by
            simpa using hid
          refine ⟨tnode, ?_, htid, ?_⟩
          · rw [List.cons_append, List.find?_cons, hid2]
            exact hfind
          · rw [List.eraseIdx_cons_succ]
            rw [← Multiset.coe_add] at hperm
            simp only [allIds, List.append_nil, ← Multiset.coe_add,
              ← Multiset.cons_coe, ← Multiset.singleton_add]
            rw [← hperm]
            abel

theorem delChildren_spec (id : Nat) (v : List SceneObject) :
    ((delChildren v id).2 = true ↔ id ∈ (searchTail v).map SceneObject.id) ∧
    ((delChildren v id).2 = false → (delChildren v id).1 = v) ∧
    (∀ tnode, (searchTail v).find? (fun o => o.id == id) = some tnode →
      tnode.id = id ∧
      (↑(allIds (delChildren v id).1 ++ allIds [tnode]) : Multiset Nat) =
        ↑(allIds v)) := by
  refine forest_ind (fun v =>
    ((delChildren v id).2 = true ↔ id ∈ (searchTail v).map SceneObject.id) ∧
    ((delChildren v id).2 = false → (delChildren v id).1 = v) ∧
    (∀ tnode, (searchTail v).find? (fun o => o.id == id) = some tnode →
      tnode.id = id ∧
      (↑(allIds (delChildren v id).1 ++ allIds [tnode]) : Multiset Nat) =
        ↑(allIds v))) ?_ ?_ v
  · refine ⟨by simp [delChildren, searchTail], by simp [delChildren], ?_⟩
    intro tnode h
    simp [searchTail] at h
  · intro i0 t tb sh c rs cr ch rest ih1 ih2
    obtain ⟨ih1a, ih1b, ih1c⟩ := ih1
    obtain ⟨ih2a, ih2b, ih2c⟩ := ih2
    have hst : searchTail (SceneObject.mk i0 t tb sh c rs cr ch :: rest) =
        (ch ++ searchTail ch) ++ searchTail rest := by simp [searchTail]
    cases hidx : ch.findIdx? (fun o => o.id == id) with
    | some i =>
        have hunf : delChildren (SceneObject.mk i0 t tb sh c rs cr ch :: rest) id =
            ((SceneObject.mk i0 t tb sh c rs cr ch).setChildren (ch.eraseIdx i) :: rest,
              true) := by
          simp [delChildren, hidx]
        obtain ⟨tn, hfind, htid, hms⟩ :=
          topPhase id (searchTail ch ++ searchTail rest) ch i hidx
        have hfind2 : ((ch ++ searchTail ch) ++ searchTail rest).find?
            (fun o => o.id == id) = some tn := by
          rw [List.append_assoc]; exact hfind
        refine ⟨?_, by simp [hunf], ?_⟩
        · rw [hunf, hst]
          simp only [true_iff]
          exact List.mem_map.mpr ⟨tn, List.mem_of_find?_eq_some hfind2, htid⟩
        · intro tnode h
          rw [hst] at h
          obtain rfl : tn = tnode := Option.some.inj (hfind2.symm.trans h)
          refine ⟨htid, ?_⟩
          rw [hunf]
          rw [← Multiset.coe_add] at hms
          simp only [SceneObject.setChildren, allIds, List.append_nil,
            ← Multiset.coe_add, ← Multiset.cons_coe, ← Multiset.singleton_add]
          rw [← hms]
          abel
    | none =>
        have hchnone : ch.find? (fun o => o.id == id) = none :=
          findIdx_none_find_none hidx
        cases hb : (delChildren ch id).2 with
        | true =>
            have hunf : delChildren (SceneObject.mk i0 t tb sh c rs cr ch :: rest) id =
                ((SceneObject.mk i0 t tb sh c rs cr ch).setChildren
                   (delChildren ch id).1 :: rest, true) := by
              simp [delChildren, hidx, hb]
            have hmem : id ∈ (searchTail ch).map SceneObject.id := ih1a.mp hb
            obtain ⟨x, hx, hxid⟩ := List.mem_map.mp hmem
            have hsome : ((searchTail ch).find? (fun o => o.id == id)).isSome :=
              List.find?_isSome.mpr ⟨x, hx, by simp [hxid]⟩
            obtain ⟨tn, htn⟩ := Option.isSome_iff_exists.mp hsome
            obtain ⟨htid, hms⟩ := ih1c tn htn
            have hfind2 : ((ch ++ searchTail ch) ++ searchTail rest).find?
                (fun o => o.id == id) = some tn := by
              rw [List.append_assoc, List.find?_append, hchnone,
                List.find?_append, htn]
              simp
            refine ⟨?_, by simp [hunf], ?_⟩
            · rw [hunf, hst]
              simp only [true_iff]
              exact List.mem_map.mpr ⟨tn, List.mem_of_find?_eq_some hfind2, htid⟩
            · intro tnode h
              rw [hst] at h
              obtain rfl : tn = tnode := Option.some.inj (hfind2.symm.trans h)
              refine ⟨htid, ?_⟩
              rw [hunf]
              rw [← Multiset.coe_add] at hms
              simp only [SceneObject.setChildren, allIds, List.append_nil,
                ← Multiset.coe_add, ← Multiset.cons_coe, ← Multiset.singleton_add]
              rw [← hms]
              abel
        | false =>
            have hunf : delChildren (SceneObject.mk i0 t tb sh c rs cr ch :: rest) id =
                (SceneObject.mk i0 t tb sh c rs cr ch :: (delChildren rest id).1,
                  (delChildren rest id).2) := by
              simp [delChildren, hidx, hb]
            have hstchnone : (searchTail ch).find? (fun o => o.id == id) = none := by
              rw [List.find?_eq_none]
              intro x hx hpx
              exact absurd (ih1a.mpr (List.mem_map.mpr ⟨x, hx, by simpa using hpx⟩))
                (by simp [hb])
            have hchids : ∀ x ∈ ch, x.id ≠ id := by
              intro x hx
              have := List.findIdx?_eq_none_iff.mp hidx x hx
              simpa using this
            refine ⟨?_, ?_, ?_⟩
            · rw [hunf, hst]
              constructor
              · intro hb2
                have := ih2a.mp hb2
                simp only [List.map_append, List.mem_append] at *
                tauto
              · intro hmm
                simp only [List.map_append, List.mem_append] at hmm
                rcases hmm with (hc | hstc) | hsr
                · obtain ⟨x, hx, hxid⟩ := List.mem_map.mp hc
                  exact absurd hxid (hchids x hx)
                · obtain ⟨x, hx, hxid⟩ := List.mem_map.mp hstc
                  rw [List.find?_eq_none] at hstchnone
                  exact absurd (by simp [hxid] : (fun o => o.id == id) x = true)
                    (hstchnone x hx)
                · exact ih2a.mpr hsr
            · rw [hunf]
              intro h2
              simp only at h2
              rw [ih2b h2]
            · intro tnode h
              rw [hst, List.find?_append, List.find?_append, hchnone, hstchnone] at h
              simp only [Option.none_or] at h
              obtain ⟨htid, hms⟩ := ih2c tnode h
              refine ⟨htid, ?_⟩
              rw [hunf]
              rw [← Multiset.coe_add] at hms
              simp only [allIds, List.append_nil, ← Multiset.coe_add,
                ← Multiset.cons_coe, ← Multiset.singleton_add]
              rw [← hms]
              abel

theorem fdel_spec (v : List SceneObject) (id : Nat) :
    ((find_and_delete_node v id).2 = true ↔ id ∈ allIds v) ∧
    ((find_and_delete_node v id).2 = false → (find_and_delete_node v id).1 = v) ∧
    (∀ tnode, (searchOrder v).find? (fun o => o.id == id) = some tnode →
      tnode.id = id ∧
      (↑(allIds (find_and_delete_node v id).1 ++ allIds [tnode]) : Multiset Nat) =
        ↑(allIds v)) := by
  have hmemiff : id ∈ (searchOrder v).map SceneObject.id ↔ id ∈ allIds v :=
    (searchOrder_ids_perm v).mem_iff
  cases hidx : v.findIdx? (fun o => o.id == id) with
  | some i =>
      have hunf : find_and_delete_node v id = (v.eraseIdx i, true) := by
        simp [find_and_delete_node, hidx]
      obtain ⟨tn, hfind, htid, hms⟩ := topPhase id (searchTail v) v i hidx
      have hfind2 : (searchOrder v).find? (fun o => o.id == id) = some tn := by
        simpa [searchOrder] using hfind
      refine ⟨?_, by simp [hunf], ?_⟩
      · rw [hunf]
        simp only [true_iff]
        exact hmemiff.mp
          (List.mem_map.mpr ⟨tn, List.mem_of_find?_eq_some hfind2, htid⟩)
      · intro tnode h
        obtain rfl : tn = tnode := Option.some.inj (hfind2.symm.trans h)
        refine ⟨htid, ?_⟩
        rw [hunf]
        exact hms
  | none =>
      have hunf : find_and_delete_node v id = delChildren v id := by
        simp [find_and_delete_node, hidx]
      have hvnone : v.find? (fun o => o.id == id) = none := findIdx_none_find_none hidx
      have hvids : id ∉ v.map SceneObject.id := by
        intro hmm
        obtain ⟨x, hx, hxid⟩ := List.mem_map.mp hmm
        have := List.findIdx?_eq_none_iff.mp hidx x hx
        simp [hxid] at this
      obtain ⟨ha, hb, hc⟩ := delChildren_spec id v
      have hso : (searchOrder v).find? (fun o => o.id == id) =
          (searchTail v).find? (fun o => o.id == id) := by
        rw [show searchOrder v = v ++ searchTail v from rfl, List.find?_append, hvnone]
        simp
      refine ⟨?_, ?_, ?_⟩
      · rw [hunf, ha]
        constructor
        · intro hx
          refine hmemiff.mp ?_
          rw [show searchOrder v = v ++ searchTail v from rfl, List.map_append]
          exact List.mem_append.mpr (Or.inr hx)
        · intro hx
          have h2 := hmemiff.mpr hx
          rw [show searchOrder v = v ++ searchTail v from rfl, List.map_append] at h2
          rcases List.mem_append.mp h2 with h3 | h3
          · exact absurd h3 hvids
          · exact h3
      · rw [hunf]
        exact hb
      · intro tnode h
        rw [hso] at h
        obtain ⟨htid, hms⟩ := hc tnode h
        refine ⟨htid, ?_⟩
        rw [hunf]
        exact hms

/- ---------------- lookup and update lemmas ---------------- -/

theorem allNodes_cons (q : SceneObject) (rest : List SceneObject) :
    allNodes (q :: rest) = q :: (allNodes q.children ++ allNodes rest) := by
  cases q
  simp [allNodes, SceneObject.children]

theorem find_object_sound (id : Nat) (v : List SceneObject) :
    ∀ u, find_object_by_id v id = some u → u ∈ allNodes v ∧ u.id = id := by
  refine forest_ind
    (fun v => ∀ u, find_object_by_id v id = some u → u ∈ allNodes v ∧ u.id = id)
    ?_ ?_ v
  · intro u h
    simp [find_object_by_id] at h
  · intro i0 t tb sh c rs cr ch rest ih1 ih2 u h
    by_cases h0 : i0 = id
    · rw [show find_object_by_id (SceneObject.mk i0 t tb sh c rs cr ch :: rest) id =
          some (SceneObject.mk i0 t tb sh c rs cr ch) by
        simp [find_object_by_id, h0]] at h
      obtain rfl := Option.some.inj h
      exact ⟨by simp [allNodes], by simp [SceneObject.id, h0]⟩
    · rw [show find_object_by_id (SceneObject.mk i0 t tb sh c rs cr ch :: rest) id =
          (match find_object_by_id ch id with
           | some r => some r
           | none => find_object_by_id rest id) by
        simp [find_object_by_id, h0]] at h
      cases hch : find_object_by_id ch id with
      | some u2 =>
          rw [hch] at h
          obtain rfl := Option.some.inj h
          obtain ⟨hm, hi⟩ := ih1 u2 hch
          exact ⟨by simp [allNodes, hm], hi⟩
      | none =>
          rw [hch] at h
          obtain ⟨hm, hi⟩ := ih2 u h
          exact ⟨by simp [allNodes, hm], hi⟩

theorem find_object_isSome (id : Nat) (v : List SceneObject) :
    id ∈ allIds v → (find_object_by_id v id).isSome := by
  refine forest_ind (fun v => id ∈ allIds v → (find_object_by_id v id).isSome) ?_ ?_ v
  · simp [allIds]
  · intro i0 t tb sh c rs cr ch rest ih1 ih2 hmem
    by_cases h0 : i0 = id
    · simp [find_object_by_id, h0]
    · simp only [allIds, List.mem_cons, List.mem_append] at hmem
      rcases hmem with h1 | h1 | h1
      · exact absurd h1.symm h0
      · have := ih1 h1
        obtain ⟨u, hu⟩ := Option.isSome_iff_exists.mp this
        simp [find_object_by_id, h0, hu]
      · cases hch : find_object_by_id ch id with
        | some u => simp [find_object_by_id, h0, hch]
        | none =>
            have := ih2 h1
            obtain ⟨u, hu⟩ := Option.isSome_iff_exists.mp this
            simp [find_object_by_id, h0, hch, hu]

theorem allIds_sublist {a b : List SceneObject} (h : a.Sublist b) :
    (allIds a).Sublist (allIds b) := by
  induction h with
  | slnil => simp
  | cons o hsub ih =>
      cases o with
      | mk i t tb sh c rs cr ch =>
        simp only [allIds]
        exact ih.trans ((List.sublist_append_right (allIds ch) _).trans
          (List.sublist_cons_self i _))
  | cons₂ o hsub ih =>
      cases o with
      | mk i t tb sh c rs cr ch =>
        simp only [allIds]
        exact (ih.append_left (allIds ch)).cons₂ i

theorem delChildren_ids_sublist (id : Nat) (v : List SceneObject) :
    (allIds (delChildren v id).1).Sublist (allIds v) := by
  refine forest_ind (fun v => (allIds (delChildren v id).1).Sublist (allIds v)) ?_ ?_ v
  · simp [delChildren]
  · intro i0 t tb sh c rs cr ch rest ih1 ih2
    cases hidx : ch.findIdx? (fun o => o.id == id) with
    | some i =>
        rw [show (delChildren (SceneObject.mk i0 t tb sh c rs cr ch :: rest) id).1 =
            (SceneObject.mk i0 t tb sh c rs cr ch).setChildren (ch.eraseIdx i) :: rest by
          simp [delChildren, hidx]]
        simp only [SceneObject.setChildren, allIds]
        exact ((allIds_sublist (List.eraseIdx_sublist ch i)).append_right _).cons₂ i0
    | none =>
        cases hb : (delChildren ch id).2 with
        | true =>
            rw [show (delChildren (SceneObject.mk i0 t tb sh c rs cr ch :: rest) id).1 =
                (SceneObject.mk i0 t tb sh c rs cr ch).setChildren
                  (delChildren ch id).1 :: rest by
              simp [delChildren, hidx, hb]]
            simp only [SceneObject.setChildren, allIds]
            exact (ih1.append_right _).cons₂ i0
        | false =>
            rw [show (delChildren (SceneObject.mk i0 t tb sh c rs cr ch :: rest) id).1 =
                SceneObject.mk i0 t tb sh c rs cr ch :: (delChildren rest id).1 by
              simp [delChildren, hidx, hb]]
            simp only [allIds]
            exact (ih2.append_left (allIds ch)).cons₂ i0

theorem fdel_ids_sublist (v : List SceneObject) (id : Nat) :
    (allIds (find_and_delete_node v id).1).Sublist (allIds v) := by
  cases hidx : v.findIdx? (fun o => o.id == id) with
  | some i =>
      rw [show (find_and_delete_node v id).1 = v.eraseIdx i by
        simp [find_and_delete_node, hidx]]
      exact allIds_sublist (List.eraseIdx_sublist v i)
  | none =>
      rw [show (find_and_delete_node v id).1 = (delChildren v id).1 by
        simp [find_and_delete_node, hidx]]
      exact delChildren_ids_sublist id v

theorem updateFirst_none_iff (id : Nat) (f : SceneObject → SceneObject)
    (v : List SceneObject) :
    updateFirstById v id f = none ↔ id ∉ allIds v := by
  refine forest_ind (fun v => updateFirstById v id f = none ↔ id ∉ allIds v) ?_ ?_ v
  · simp [updateFirstById, allIds]
  · intro i0 t tb sh c rs cr ch rest ih1 ih2
    by_cases h0 : i0 = id
    · simp [updateFirstById, allIds, h0]
    · cases hch : updateFirstById ch id f with
      | some ch2 =>
          have hin : id ∈ allIds ch := by
            by_contra hno
            rw [← ih1] at hno
            simp [hch] at hno
          simp [updateFirstById, allIds, h0, hch, hin]
      | none =>
          have hnotch : id ∉ allIds ch := ih1.mp hch
          cases hrest : updateFirstById rest id f with
          | some rest2 =>
              have hin : id ∈ allIds rest := by
                by_contra hno
                rw [← ih2] at hno
                simp [hrest] at hno
              simp [updateFirstById, allIds, h0, hch, hrest, hin]
          | none =>
              have hnotrest : id ∉ allIds rest := ih2.mp hrest
              simp [updateFirstById, allIds, h0, hch, hrest, hnotch, hnotrest]
              omega

theorem updateFirst_some_mem (id : Nat) (f : SceneObject → SceneObject)
    (v : List SceneObject) :
    ∀ v2, updateFirstById v id f = some v2 →
      ∃ p, p ∈ allNodes v ∧ p.id = id ∧ f p ∈ allNodes v2 := by
  refine forest_ind
    (fun v => ∀ v2, updateFirstById v id f = some v2 →
      ∃ p, p ∈ allNodes v ∧ p.id = id ∧ f p ∈ allNodes v2) ?_ ?_ v
  · intro v2 h
    simp [updateFirstById] at h
  · intro i0 t tb sh c rs cr ch rest ih1 ih2 v2 h
    by_cases h0 : i0 = id
    · rw [show updateFirstById (SceneObject.mk i0 t tb sh c rs cr ch :: rest) id f =
          some (f (SceneObject.mk i0 t tb sh c rs cr ch) :: rest) by
        simp [updateFirstById, h0]] at h
      obtain rfl := Option.some.inj h
      refine ⟨SceneObject.mk i0 t tb sh c rs cr ch, by simp [allNodes],
        by simp [SceneObject.id, h0], ?_⟩
      rw [allNodes_cons]
      simp
    · cases hch : updateFirstById ch id f with
      | some ch2 =>
          rw [show updateFirstById (SceneObject.mk i0 t tb sh c rs cr ch :: rest) id f =
              some ((SceneObject.mk i0 t tb sh c rs cr ch).setChildren ch2 :: rest) by
            simp [updateFirstById, h0, hch]] at h
          obtain rfl := Option.some.inj h
          obtain ⟨p, hp, hpid, hfp⟩ := ih1 ch2 hch
          refine ⟨p, by simp [allNodes, hp], hpid, ?_⟩
          simp [SceneObject.setChildren, allNodes, hfp]
      | none =>
          cases hrest : updateFirstById rest id f with
          | some rest2 =>
              rw [show updateFirstById
                    (SceneObject.mk i0 t tb sh c rs cr ch :: rest) id f =
                  some (SceneObject.mk i0 t tb sh c rs cr ch :: rest2) by
                simp [updateFirstById, h0, hch, hrest]] at h
              obtain rfl := Option.some.inj h
              obtain ⟨p, hp, hpid, hfp⟩ := ih2 rest2 hrest
              refine ⟨p, by simp [allNodes, hp], hpid, ?_⟩
              simp [allNodes, hfp]
          | none =>
              rw [show updateFirstById
                    (SceneObject.mk i0 t tb sh c rs cr ch :: rest) id f = none by
                simp [updateFirstById, h0, hch, hrest]] at h
              simp at h

theorem updateFirst_push_ids (n : SceneObject) (id : Nat) (v : List SceneObject) :
    ∀ v2, updateFirstById v id (pushChild n) = some v2 →
      (↑(allIds v2) : Multiset Nat) = ↑(allIds v) + ↑(allIds [n]) := by
  refine forest_ind
    (fun v => ∀ v2, updateFirstById v id (pushChild n) = some v2 →
      (↑(allIds v2) : Multiset Nat) = ↑(allIds v) + ↑(allIds [n])) ?_ ?_ v
  · intro v2 h
    simp [updateFirstById] at h
  · intro i0 t tb sh c rs cr ch rest ih1 ih2 v2 h
    by_cases h0 : i0 = id
    · rw [show updateFirstById (SceneObject.mk i0 t tb sh c rs cr ch :: rest) id
            (pushChild n) =
          some (pushChild n (SceneObject.mk i0 t tb sh c rs cr ch) :: rest) by
        simp [updateFirstById, h0]] at h
      obtain rfl := Option.some.inj h
      simp only [pushChild, SceneObject.setChildren, SceneObject.children, allIds,
        allIds_append, ← Multiset.coe_add, ← Multiset.cons_coe,
        ← Multiset.singleton_add]
      abel
    · cases hch : updateFirstById ch id (pushChild n) with
      | some ch2 =>
          rw [show updateFirstById (SceneObject.mk i0 t tb sh c rs cr ch :: rest) id
                (pushChild n) =
              some ((SceneObject.mk i0 t tb sh c rs cr ch).setChildren ch2 :: rest) by
            simp [updateFirstById, h0, hch]] at h
          obtain rfl := Option.some.inj h
          have hih := ih1 ch2 hch
          simp only [SceneObject.setChildren, allIds, ← Multiset.coe_add,
            ← Multiset.cons_coe, ← Multiset.singleton_add] at hih ⊢
          rw [hih]
          abel
      | none =>
          cases hrest : updateFirstById rest id (pushChild n) with
          | some rest2 =>
              rw [show updateFirstById
                    (SceneObject.mk i0 t tb sh c rs cr ch :: rest) id (pushChild n) =
                  some (SceneObject.mk i0 t tb sh c rs cr ch :: rest2) by
                simp [updateFirstById, h0, hch, hrest]] at h
              obtain rfl := Option.some.inj h
              have hih := ih2 rest2 hrest
              simp only [allIds, ← Multiset.coe_add, ← Multiset.cons_coe,
                ← Multiset.singleton_add] at hih ⊢
              rw [hih]
              abel
          | none =>
              rw [show updateFirstById
                    (SceneObject.mk i0 t tb sh c rs cr ch :: rest) id (pushChild n) =
                  none by simp [updateFirstById, h0, hch, hrest]] at h
              simp at h

/- ---------------- request-queue lemmas ---------------- -/

theorem processT_agree (reqs : List EditorRequest) :
    ∀ v c, (processRequestsT v reqs c).1 = (process_requests v reqs c).1 ∧
      (processRequestsT v reqs c).2.1 = (process_requests v reqs c).2 := by
  induction reqs with
  | nil => intro v c; simp [processRequestsT, process_requests]
  | cons r rest ih =>
      intro v c
      cases r with
      | AddChild pid =>
          cases h : updateFirstById v pid
              (pushChild (SceneObject.new ((c + 1) % u32size) "New Node"
                .Square .WHITE)) with
          | some v2 => simp [processRequestsT, process_requests, h, ih]
          | none => simp [processRequestsT, process_requests, h, ih]
      | DeleteNode nid => simp [processRequestsT, process_requests, ih]

theorem processT_ids (reqs : List EditorRequest) :
    ∀ v c, c + reqs.length < u32size →
      ∃ k, k ≤ reqs.length ∧
        (processRequestsT v reqs c).2.2 = List.range' (c + 1) k ∧
        (processRequestsT v reqs c).2.1 = c + k := by
  induction reqs with
  | nil =>
      intro v c h
      exact ⟨0, by simp, by simp [processRequestsT], by simp [processRequestsT]⟩
  | cons r rest ih =>
      intro v c hov
      rw [List.length_cons] at hov
      cases r with
      | AddChild pid =>
          have hc1 : (c + 1) % u32size = c + 1 := Nat.mod_eq_of_lt (by omega)
          cases h : updateFirstById v pid
              (pushChild (SceneObject.new ((c + 1) % u32size) "New Node"
                .Square .WHITE)) with
          | some v2 =>
              obtain ⟨k, hk, has, hc⟩ := ih v2 (c + 1) (by omega)
              refine ⟨k + 1, by simp only [List.length_cons]; omega, ?_, ?_⟩
              · rw [show (processRequestsT v (.AddChild pid :: rest) c).2.2 =
                    (c + 1) % u32size ::
                      (processRequestsT v2 rest ((c + 1) % u32size)).2.2 by
                  simp [processRequestsT, h]]
                rw [hc1, has, List.range'_succ]
              · rw [show (processRequestsT v (.AddChild pid :: rest) c).2.1 =
                    (processRequestsT v2 rest ((c + 1) % u32size)).2.1 by
                  simp [processRequestsT, h]]
                rw [hc1, hc]
                omega
          | none =>
              obtain ⟨k, hk, has, hc⟩ := ih v c (by omega)
              refine ⟨k, by simp only [List.length_cons]; omega, ?_, ?_⟩
              · rw [show (processRequestsT v (.AddChild pid :: rest) c).2.2 =
                    (processRequestsT v rest c).2.2 by simp [processRequestsT, h]]
                exact has
              · rw [show (processRequestsT v (.AddChild pid :: rest) c).2.1 =
                    (processRequestsT v rest c).2.1 by simp [processRequestsT, h]]
                exact hc
      | DeleteNode nid =>
          obtain ⟨k, hk, has, hc⟩ :=
            ih (find_and_delete_node v nid).1 c (by omega)
          refine ⟨k, by simp only [List.length_cons]; omega, ?_, ?_⟩
          · rw [show (processRequestsT v (.DeleteNode nid :: rest) c).2.2 =
                (processRequestsT (find_and_delete_node v nid).1 rest c).2.2 by
              simp [processRequestsT]]
            exact has
          · rw [show (processRequestsT v (.DeleteNode nid :: rest) c).2.1 =
                (processRequestsT (find_and_delete_node v nid).1 rest c).2.1 by
              simp [processRequestsT]]
            exact hc

/- ---------------- animation lemmas ---------------- -/

theorem animateF_map (dt : ℚ) (v : List SceneObject) :
    (allNodes (animateF v dt)).map (fun n => (n.id, n.currentRotation)) =
      (allNodes v).map (fun n => (n.id, n.currentRotation + n.rotationSpeed * dt)) := by
  refine forest_ind
    (fun v => (allNodes (animateF v dt)).map (fun n => (n.id, n.currentRotation)) =
      (allNodes v).map
        (fun n => (n.id, n.currentRotation + n.rotationSpeed * dt))) ?_ ?_ v
  · simp [animateF, allNodes]
  · intro i t tb sh c rs cr ch rest ih1 ih2
    simp only [animateF, allNodes, List.map_cons, List.map_append]
    rw [ih1, ih2]
    simp [SceneObject.id, SceneObject.currentRotation, SceneObject.rotationSpeed]

theorem animateF_single (o : SceneObject) (dt : ℚ) :
    animateF [o] dt = [animate o dt] := by
  cases o
  simp [animateF, animate]

/- ---------------- camera lemmas ---------------- -/

theorem updateCamera_zoom (s : CameraState) (i : FrameInput) :
    (updateCamera s i).zoom =
      rustClamp (s.zoom + i.rawScrollDeltaY * (1 / 1000) * i.pixelsPerPoint)
        (1 / 10) 2 := by
  unfold updateCamera
  cases h : i.hoverPos <;> cases hsec : i.secondaryDown <;> cases hd : s.dragging <;>
    simp [h, hsec, hd]

theorem rustClamp_bounds (x lo hi : ℚ) (h : lo ≤ hi) :
    lo ≤ rustClamp x lo hi ∧ rustClamp x lo hi ≤ hi := by
  unfold rustClamp
  split_ifs <;> constructor <;> linarith

theorem updateCamera_zoom_bounds (s : CameraState) (i : FrameInput) :
    1 / 10 ≤ (updateCamera s i).zoom ∧ (updateCamera s i).zoom ≤ 2 := by
  rw [updateCamera_zoom]
  exact rustClamp_bounds _ _ _ (by norm_num)

theorem setChildren_children (p : SceneObject) (l : List SceneObject) :
    (p.setChildren l).children = l := by
  cases p
  simp [SceneObject.setChildren, SceneObject.children]

theorem zoomFold_bounds (inputs : List FrameInput) :
    ∀ (s : CameraState) (i : FrameInput),
      1 / 10 ≤ (inputs.foldl updateCamera (updateCamera s i)).zoom ∧
        (inputs.foldl updateCamera (updateCamera s i)).zoom ≤ 2 := by
  induction inputs with
  | nil => intro s i; simpa using updateCamera_zoom_bounds s i
  | cons j rest ih =>
      intro s i
      rw [List.foldl_cons]
      exact ih (updateCamera s i) j

/- ---------------- bridges between list-level and node-level defs ---------------- -/

/-- The list-level layout loop agrees with iterating the node-level
`layout_recursive` with `y` and `cur` both set to the running cursor,
exactly as both source call sites do. -/
theorem layoutList_cons_eq (o : SceneObject) (rest : List SceneObject)
    (x cy : ℚ) (m : LayoutMap) :
    layoutList (o :: rest) x cy m =
      ((layout_recursive o x cy cy m).1 +
        (layoutList rest x (layout_recursive o x cy cy m).2.1
          (layout_recursive o x cy cy m).2.2).1,
       (layoutList rest x (layout_recursive o x cy cy m).2.1
          (layout_recursive o x cy cy m).2.2).2) := by
  cases o
  simp [layoutList, layout_recursive]

/-- The second phase of deletion agrees with the source loop
`v.iter_mut().any(|o| find_and_delete_node(&mut o.children, id))`:
for each element in order, run the full `find_and_delete_node` on its
children and stop at the first success. -/
theorem delChildren_cons_eq (o : SceneObject) (rest : List SceneObject) (id : Nat) :
    delChildren (o :: rest) id =
      if (find_and_delete_node o.children id).2
      then (o.setChildren (find_and_delete_node o.children id).1 :: rest, true)
      else (o :: (delChildren rest id).1, (delChildren rest id).2) := by
  cases o with
  | mk i t tb sh c rs cr ch =>
      cases hidx : ch.findIdx? (fun x => x.id == id) with
      | some j =>
          simp [delChildren, find_and_delete_node, SceneObject.children, hidx]
      | none =>
          simp [delChildren, find_and_delete_node, SceneObject.children, hidx]

/-- The animation loop is the element-wise map of the node-level
`animate`, as in `for o in &mut self.scene_objects { animate(o, dt) }`. -/
theorem animateF_eq_map (dt : ℚ) (v : List SceneObject) :
    animateF v dt = v.map (fun o => animate o dt) := by
  induction v with
  | nil => simp [animateF]
  | cons o rest ih =>
      cases o
      simp [animateF, animate, ih]

/- ---------------- claim theorems ---------------- -/

/-- C2 counterexample: for the node with id 1 entering `layout_recursive`
at `x = 200`, `y = cur = 100` with one leaf child, the accumulated child
extent is 120, yet the assigned vertical coordinate is 100, not the
claimed `y + th/2 = 160`: the code subtracts `YS/2 = 60`. -/
theorem c2_counterexample :
    (SceneObject.mk 1 "p" "p" .Square .WHITE 20 0
        [SceneObject.mk 2 "c" "c" .Square .WHITE 20 0 []]).children ≠ [] ∧
    (layoutList (SceneObject.mk 1 "p" "p" .Square .WHITE 20 0
        [SceneObject.mk 2 "c" "c" .Square .WHITE 20 0 []]).children
      (200 + XS) 100 []).1 = 120 ∧
    lookupL (layout_recursive (SceneObject.mk 1 "p" "p" .Square .WHITE 20 0
        [SceneObject.mk 2 "c" "c" .Square .WHITE 20 0 []]) 200 100 100 []).2.2 1 =
      some ⟨200, 100⟩ ∧
    (100 : ℚ) ≠ 100 + 120 / 2 := by
  refine ⟨by simp [SceneObject.children], ?_, ?_, by norm_num⟩
  · simp [SceneObject.children, layoutList, YS]
  · simp [layout_recursive, layoutList, insertL, lookupL, SceneObject.id, XS, YS]

/-- C2 (amended): for every node with a non-empty children list,
`layout_recursive` assigns the vertical coordinate
`y + th/2 - YS/2` — the entry cursor `y` plus half the accumulated child
extent, minus half the minimum row height (`YS/2 = 60`) — not `y + th/2`
as claimed. -/
theorem c2_parent_midpoint_amended (o : SceneObject) (x y cur : ℚ) (m : LayoutMap)
    (h : o.children ≠ []) :
    lookupL (layout_recursive o x y cur m).2.2 o.id =
      some ⟨x, y + (layoutList o.children (x + XS) y m).1 / 2 - YS / 2⟩ := by
  cases o with
  | mk i t tb sh c rs cr ch =>
      simp only [SceneObject.children] at h ⊢
      have hne : ch.isEmpty = false := by
        simpa [List.isEmpty_iff] using h
      simp [layout_recursive, SceneObject.id, hne, lookupL_insertL_self]

theorem c2_witness :
    (SceneObject.mk 1 "p" "p" .Square .WHITE 20 0
        [SceneObject.mk 2 "c" "c" .Square .WHITE 20 0 []]).children ≠ [] ∧
    lookupL (layout_recursive (SceneObject.mk 1 "p" "p" .Square .WHITE 20 0
        [SceneObject.mk 2 "c" "c" .Square .WHITE 20 0 []]) 200 100 100 []).2.2
      (SceneObject.mk 1 "p" "p" .Square .WHITE 20 0
        [SceneObject.mk 2 "c" "c" .Square .WHITE 20 0 []]).id =
      some ⟨200, 100 + (layoutList (SceneObject.mk 1 "p" "p" .Square .WHITE 20 0
        [SceneObject.mk 2 "c" "c" .Square .WHITE 20 0 []]).children
          (200 + XS) 100 []).1 / 2 - YS / 2⟩ :=
  ⟨by simp [SceneObject.children],
   c2_parent_midpoint_amended _ 200 100 100 [] (by simp [SceneObject.children])⟩

/-- C4: for every forest, the key set of the per-frame layout map is
duplicate-free and coincides exactly with the set of ids present in the
forest. -/
theorem c4_layout_keys_bijective (v : List SceneObject) :
    (keysL (layoutForest v)).Nodup ∧
    ∀ j, j ∈ keysL (layoutForest v) ↔ j ∈ allIds v := by
  obtain ⟨h1, h2⟩ := layoutList_keys v 200 100 []
  refine ⟨h2 (by simp [keysL]), ?_⟩
  intro j
  have := h1 j
  simpa [layoutForest, keysL] using this

/-- C5: hit-testing returns exactly the first node in depth-first
pre-order whose anchor lies within the fixed radius of the query point
(nodes absent from the layout map never match), and a query point
exactly at some node's anchor always yields a hit. -/
theorem c5_hit_first_preorder (v : List SceneObject) (w : Vec2) (m : LayoutMap) :
    findClickedForest v w m = ((allNodes v).find? (hitB w m)).map SceneObject.id ∧
    ((∃ o ∈ allNodes v, lookupL m o.id = some w) →
      (findClickedForest v w m).isSome) := by
  have h1 : findClickedForest v w m =
      ((allNodes v).find? (hitB w m)).map SceneObject.id :=
    (findClickedForest_eq v w m).trans (findClickedList_eq_find v w m)
  refine ⟨h1, ?_⟩
  rintro ⟨o, ho, hlook⟩
  rw [h1]
  have hhit : hitB w m o = true := by
    simp [hitB, hlook, dist2]
  have := List.find?_isSome.mpr ⟨o, ho, hhit⟩
  simpa using this

theorem c5_witness :
    (findClickedForest [SceneObject.mk 1 "a" "a" .Square .WHITE 20 0 []]
      ⟨0, 0⟩ [(1, ⟨0, 0⟩)]).isSome :=
  (c5_hit_first_preorder [SceneObject.mk 1 "a" "a" .Square .WHITE 20 0 []]
      ⟨0, 0⟩ [(1, ⟨0, 0⟩)]).2
    ⟨SceneObject.mk 1 "a" "a" .Square .WHITE 20 0 [],
     by simp [allNodes], by simp [lookupL, SceneObject.id]⟩

/-- C7: `find_and_delete_node` returns true exactly when the id occurs
in the forest, leaves the forest untouched on a miss, and on a hit
removes precisely the first node matching the id in its search order
(each sibling list checked in full before descending, depth-first by
subtree), together with that node's whole subtree. -/
theorem c7_delete_first_in_search_order (v : List SceneObject) (id : Nat) :
    ((find_and_delete_node v id).2 = true ↔ id ∈ allIds v) ∧
    ((find_and_delete_node v id).2 = false → (find_and_delete_node v id).1 = v) ∧
    (∀ tnode, (searchOrder v).find? (fun o => o.id == id) = some tnode →
      tnode.id = id ∧
      (allIds (find_and_delete_node v id).1 ++ allIds [tnode]).Perm (allIds v)) := by
  obtain ⟨ha, hb, hc⟩ := fdel_spec v id
  exact ⟨ha, hb, fun tnode ht =>
    ⟨(hc tnode ht).1, Multiset.coe_eq_coe.mp (hc tnode ht).2⟩⟩

/-- C8: `animate` adds `rotation_speed * dt` to `current_rotation` of a
node and of every descendant at any depth, leaving ids paired up; in
particular rotation speed 90 at rotation 0 with `dt = 1/2` lands at 45. -/
theorem c8_animate_rotation (o : SceneObject) (dt : ℚ) :
    (allNodes [animate o dt]).map (fun n => (n.id, n.currentRotation)) =
      (allNodes [o]).map
        (fun n => (n.id, n.currentRotation + n.rotationSpeed * dt)) ∧
    (animate (SceneObject.mk 0 "n" "n" .Square .WHITE 90 0 [])
      (1 / 2)).currentRotation = 45 := by
  constructor
  · rw [← animateF_single]
    exact animateF_map dt [o]
  · simp [animate, animateF, SceneObject.currentRotation]
    norm_num

/-- C9: after any frame update, whatever the starting zoom, the pan
state machine's state, and the sequence of scroll and pixel-ratio
inputs, the camera zoom lies in the closed interval `[0.1, 2.0]`. -/
theorem c9_zoom_always_clamped (s : CameraState) (inputs : List FrameInput)
    (h : inputs ≠ []) :
    1 / 10 ≤ (inputs.foldl updateCamera s).zoom ∧
      (inputs.foldl updateCamera s).zoom ≤ 2 := by
  cases inputs with
  | nil => exact absurd rfl h
  | cons i rest =>
      rw [List.foldl_cons]
      exact zoomFold_bounds rest s i

theorem c9_witness :
    ([⟨1000000, 2, false, none⟩] : List FrameInput) ≠ [] ∧
    1 / 10 ≤ (([⟨1000000, 2, false, none⟩] : List FrameInput).foldl updateCamera
        ⟨1, false, ⟨0, 0⟩, ⟨0, 0⟩⟩).zoom ∧
      (([⟨1000000, 2, false, none⟩] : List FrameInput).foldl updateCamera
        ⟨1, false, ⟨0, 0⟩, ⟨0, 0⟩⟩).zoom ≤ 2 :=
  ⟨by simp,
   c9_zoom_always_clamped ⟨1, false, ⟨0, 0⟩, ⟨0, 0⟩⟩
     [⟨1000000, 2, false, none⟩] (by simp)⟩

/-- C1: as long as the `u32` counter cannot wrap during the batch, the
applied `AddChild` requests of one `process_requests` run assign exactly
the consecutive ids `c+1, ..., c+k` in order (one counter increment per
applied add, none for deletes or missed parents), the counter ends at
`c + k`, and — given that the counter dominates every id ever used —
each assigned id is strictly greater than every id present before the
run, so ids never collide even across interleaved deletions. -/
theorem c1_add_ids_fresh_monotonic (v : List SceneObject)
    (reqs : List EditorRequest) (c : Nat)
    (hc : ∀ i ∈ allIds v, i ≤ c) (hov : c + reqs.length < u32size) :
    ∃ k, k ≤ reqs.length ∧
      (processRequestsT v reqs c).2.2 = List.range' (c + 1) k ∧
      (processRequestsT v reqs c).2.1 = c + k ∧
      (process_requests v reqs c).2 = c + k ∧
      ∀ a ∈ (processRequestsT v reqs c).2.2, ∀ i ∈ allIds v, i < a := by
  obtain ⟨k, hk, has, hcnt⟩ := processT_ids reqs v c hov
  refine ⟨k, hk, has, hcnt, ?_, ?_⟩
  · rw [← (processT_agree reqs v c).2]
    exact hcnt
  · intro a ha i hi
    rw [has] at ha
    have h1 := List.mem_range'_1.mp ha
    have h2 := hc i hi
    omega

theorem c1_witness :
    ∃ k, k ≤ ([EditorRequest.AddChild 5, EditorRequest.DeleteNode 6,
        EditorRequest.AddChild 5]).length ∧
      (processRequestsT [SceneObject.new 5 "Root" .Square .WHITE]
          [.AddChild 5, .DeleteNode 6, .AddChild 5] 5).2.2 =
        List.range' (5 + 1) k ∧
      (processRequestsT [SceneObject.new 5 "Root" .Square .WHITE]
          [.AddChild 5, .DeleteNode 6, .AddChild 5] 5).2.1 = 5 + k ∧
      (process_requests [SceneObject.new 5 "Root" .Square .WHITE]
          [.AddChild 5, .DeleteNode 6, .AddChild 5] 5).2 = 5 + k ∧
      ∀ a ∈ (processRequestsT [SceneObject.new 5 "Root" .Square .WHITE]
          [.AddChild 5, .DeleteNode 6, .AddChild 5] 5).2.2,
        ∀ i ∈ allIds [SceneObject.new 5 "Root" .Square .WHITE], i < a :=
  c1_add_ids_fresh_monotonic [SceneObject.new 5 "Root" .Square .WHITE]
    [.AddChild 5, .DeleteNode 6, .AddChild 5] 5
    (by intro i hi; simp [allIds, SceneObject.new] at hi; omega)
    (by norm_num [u32size])

/-- C3: in a forest with unique ids, deleting a present id removes
exactly the subtree rooted at the (unique, pre-order first) node
carrying that id: afterwards neither that id nor any of its descendants'
ids remain, and every id outside that subtree is still present. -/
theorem c3_delete_removes_exactly_subtree (v : List SceneObject) (id : Nat)
    (hnd : (allIds v).Nodup) (hi : id ∈ allIds v) :
    ∃ tnode, find_object_by_id v id = some tnode ∧ tnode.id = id ∧
      ∀ j, j ∈ allIds (find_and_delete_node v id).1 ↔
        (j ∈ allIds v ∧ j ∉ allIds [tnode]) := by
  obtain ⟨ha, hb, hc⟩ := fdel_spec v id
  have hmem : id ∈ (searchOrder v).map SceneObject.id :=
    (searchOrder_ids_perm v).mem_iff.mpr hi
  obtain ⟨x, hx, hxid⟩ := List.mem_map.mp hmem
  have hsome : ((searchOrder v).find? (fun o => o.id == id)).isSome :=
    List.find?_isSome.mpr ⟨x, hx, by simp [hxid]⟩
  obtain ⟨tn, htn⟩ := Option.isSome_iff_exists.mp hsome
  obtain ⟨htid, hms⟩ := hc tn htn
  obtain ⟨u, hu⟩ := Option.isSome_iff_exists.mp (find_object_isSome id v hi)
  obtain ⟨humem, huid⟩ := find_object_sound id v u hu
  have htnmem : tn ∈ allNodes v :=
    (searchOrder_perm v).mem_iff.mp (List.mem_of_find?_eq_some htn)
  have hndm : ((allNodes v).map SceneObject.id).Nodup := by
    rw [← allIds_map]
    exact hnd
  have huf : u = tn :=
    List.inj_on_of_nodup_map hndm humem htnmem (by rw [huid, htid])
  refine ⟨u, hu, huid, ?_⟩
  have hperm : (allIds (find_and_delete_node v id).1 ++ allIds [u]).Perm
      (allIds v) := by
    rw [huf]
    exact Multiset.coe_eq_coe.mp hms
  have hnd2 : (allIds (find_and_delete_node v id).1 ++ allIds [u]).Nodup :=
    hperm.symm.nodup hnd
  have hdisj := List.disjoint_of_nodup_append hnd2
  intro j
  constructor
  · intro hj
    exact ⟨hperm.mem_iff.mp (List.mem_append.mpr (Or.inl hj)),
      fun hj2 => hdisj hj hj2⟩
  · rintro ⟨hjv, hjn⟩
    rcases List.mem_append.mp (hperm.mem_iff.mpr hjv) with h3 | h3
    · exact h3
    · exact absurd h3 hjn

theorem c3_witness :
    ∃ tnode, find_object_by_id
        [SceneObject.mk 1 "r" "r" .Square .WHITE 20 0
          [SceneObject.mk 2 "m" "m" .Square .WHITE 20 0
            [SceneObject.mk 3 "d" "d" .Square .WHITE 20 0 []]]] 2 = some tnode ∧
      tnode.id = 2 ∧
      ∀ j, j ∈ allIds (find_and_delete_node
          [SceneObject.mk 1 "r" "r" .Square .WHITE 20 0
            [SceneObject.mk 2 "m" "m" .Square .WHITE 20 0
              [SceneObject.mk 3 "d" "d" .Square .WHITE 20 0 []]]] 2).1 ↔
        (j ∈ allIds [SceneObject.mk 1 "r" "r" .Square .WHITE 20 0
            [SceneObject.mk 2 "m" "m" .Square .WHITE 20 0
              [SceneObject.mk 3 "d" "d" .Square .WHITE 20 0 []]]] ∧
          j ∉ allIds [tnode]) :=
  c3_delete_removes_exactly_subtree
    [SceneObject.mk 1 "r" "r" .Square .WHITE 20 0
      [SceneObject.mk 2 "m" "m" .Square .WHITE 20 0
        [SceneObject.mk 3 "d" "d" .Square .WHITE 20 0 []]]] 2
    (by simp [allIds]) (by simp [allIds])

/-- C6: an `AddChild` whose parent id is absent and a `DeleteNode` whose
id is absent are both silent no-ops: the forest is returned unchanged
and, for `AddChild`, the shared counter is not incremented. -/
theorem c6_missing_id_noop (v : List SceneObject) (c id : Nat)
    (h : id ∉ allIds v) :
    process_requests v [.AddChild id] c = (v, c) ∧
    process_requests v [.DeleteNode id] c = (v, c) := by
  constructor
  · have hnone := (updateFirst_none_iff id
      (pushChild (SceneObject.new ((c + 1) % u32size) "New Node"
        .Square .WHITE)) v).mpr h
    simp [process_requests, hnone]
  · obtain ⟨ha, hb, _⟩ := fdel_spec v id
    have hfalse : (find_and_delete_node v id).2 = false := by
      rw [← Bool.not_eq_true]
      intro hx
      exact h (ha.mp hx)
    simp [process_requests, hb hfalse]

theorem c6_witness :
    process_requests [SceneObject.new 1 "Root" .Square .WHITE]
      [.AddChild 99] 7 = ([SceneObject.new 1 "Root" .Square .WHITE], 7) ∧
    process_requests [SceneObject.new 1 "Root" .Square .WHITE]
      [.DeleteNode 99] 7 = ([SceneObject.new 1 "Root" .Square .WHITE], 7) :=
  c6_missing_id_noop [SceneObject.new 1 "Root" .Square .WHITE] 7 99
    (by simp [allIds, SceneObject.new])

theorem c7_witness :
    (SceneObject.mk 9 "b" "b" .Triangle .WHITE 20 0 []).id = 9 ∧
    (allIds (find_and_delete_node
        [SceneObject.mk 1 "a" "a" .Square .WHITE 20 0
          [SceneObject.mk 9 "c" "c" .Circle .WHITE 20 0 []],
         SceneObject.mk 9 "b" "b" .Triangle .WHITE 20 0 []] 9).1 ++
      allIds [SceneObject.mk 9 "b" "b" .Triangle .WHITE 20 0 []]).Perm
      (allIds [SceneObject.mk 1 "a" "a" .Square .WHITE 20 0
          [SceneObject.mk 9 "c" "c" .Circle .WHITE 20 0 []],
         SceneObject.mk 9 "b" "b" .Triangle .WHITE 20 0 []]) :=
  (c7_delete_first_in_search_order
      [SceneObject.mk 1 "a" "a" .Square .WHITE 20 0
        [SceneObject.mk 9 "c" "c" .Circle .WHITE 20 0 []],
       SceneObject.mk 9 "b" "b" .Triangle .WHITE 20 0 []] 9).2.2
    (SceneObject.mk 9 "b" "b" .Triangle .WHITE 20 0 [])
    (by simp [searchOrder, searchTail, List.find?, SceneObject.id])

/-- C10: a node created by an applied `AddChild` starts with name
"New Node", draft buffer equal to that name, shape Square, color white,
rotation speed 20, current rotation 0, and no children. -/
theorem c10_new_child_defaults (v : List SceneObject) (c pid : Nat)
    (h : pid ∈ allIds v) :
    ∃ n ∈ allNodes (process_requests v [.AddChild pid] c).1,
      n.id = (c + 1) % u32size ∧ n.text = "New Node" ∧
      n.textBuffer = "New Node" ∧ n.shape = .Square ∧ n.color = .WHITE ∧
      n.rotationSpeed = 20 ∧ n.currentRotation = 0 ∧ n.children = [] := by
  cases hupd : updateFirstById v pid
      (pushChild (SceneObject.new ((c + 1) % u32size) "New Node"
        .Square .WHITE)) with
  | none =>
      rw [updateFirst_none_iff] at hupd
      exact absurd h hupd
  | some v2 =>
      obtain ⟨p, hpmem, hpid, hfp⟩ := updateFirst_some_mem pid _ v v2 hupd
      have hres : (process_requests v [.AddChild pid] c).1 = v2 := by
        simp [process_requests, hupd]
      rw [hres]
      refine ⟨SceneObject.new ((c + 1) % u32size) "New Node" .Square .WHITE,
        ?_, ?_, ?_, ?_, ?_, ?_, ?_, ?_, ?_⟩
      · refine mem_allNodes_trans v2 _ hfp _ ?_
        rw [allNodes_cons]
        simp only [pushChild, setChildren_children, allNodes_append]
        rw [allNodes_cons]
        simp
      · simp [SceneObject.new, SceneObject.id]
      · simp [SceneObject.new, SceneObject.text]
      · simp [SceneObject.new, SceneObject.textBuffer]
      · simp [SceneObject.new, SceneObject.shape]
      · simp [SceneObject.new, SceneObject.color]
      · simp [SceneObject.new, SceneObject.rotationSpeed]
      · simp [SceneObject.new, SceneObject.currentRotation]
      · simp [SceneObject.new, SceneObject.children]

theorem c10_witness :
    ∃ n ∈ allNodes (process_requests [SceneObject.new 1 "Root" .Square .WHITE]
        [.AddChild 1] 5).1,
      n.id = (5 + 1) % u32size ∧ n.text = "New Node" ∧
      n.textBuffer = "New Node" ∧ n.shape = .Square ∧ n.color = .WHITE ∧
      n.rotationSpeed = 20 ∧ n.currentRotation = 0 ∧ n.children = [] :=
  c10_new_child_defaults [SceneObject.new 1 "Root" .Square .WHITE] 5 1
    (by simp [allIds, SceneObject.new])
